import Mathlib

/-!
Shallow embedding of the marketplace-playground helpers: the dictionary
fetcher, application-context resolver and path/language validators of
`src/unnamed/part_001`, and the `useUser` hook effect of
`src/unnamed/part_000`.  JavaScript runtime values are modelled by the
untyped `Value` type, promise outcomes by `Except Value Value` (a rejected
promise carries the thrown value in `.error`), and each exported operation
additionally reports the list of SDK calls it issued so that claims about
"no query is attempted" are statable.  Console logging is not modelled:
no claim observes the log channel.
-/

namespace Marketplace

/-- Untyped JavaScript runtime values.  Numbers are modelled as integers
(no claim involves fractional values or NaN); objects are association
lists whose first binding for a key wins. -/
inductive Value where
  | vundefined
  | vnull
  | vbool (b : Bool)
  | vnum (n : Int)
  | vstr (s : String)
  | varr (elems : List Value)
  | vobj (fields : List (String × Value))
deriving Repr

/-- Nullish values (`undefined` and `null`): exactly the values on which
plain property access throws and `?.` short-circuits. -/
def Value.isNullish : Value → Bool
  | .vundefined => true
  | .vnull => true
  | _ => false

/-- JavaScript truthiness. -/
def Value.truthy : Value → Bool
  | .vundefined => false
  | .vnull => false
  | .vbool b => b
  | .vnum n => decide (n ≠ 0)
  | .vstr s => !s.isEmpty
  | .varr _ => true
  | .vobj _ => true

/-- Property read on a non-nullish value: a missing key, or a receiver
that is not an object, yields `undefined` (as in JavaScript, where e.g.
`(5).foo` is `undefined`). -/
def Value.getField : Value → String → Value
  | .vobj fields, k =>
    match fields.lookup k with
    | some v => v
    | none => .vundefined
  | _, _ => .vundefined

/-- Index read on a non-nullish value; on a plain object `a[i]` reads the
key `toString i`. -/
def Value.getIndex : Value → Nat → Value
  | .varr elems, i =>
    match elems.get? i with
    | some v => v
    | none => .vundefined
  | .vobj fields, i =>
    match fields.lookup (toString i) with
    | some v => v
    | none => .vundefined
  | _, _ => .vundefined

/-- Optional-chaining property access `a?.k`. -/
def optGet (v : Value) (k : String) : Value :=
  if v.isNullish then .vundefined else v.getField k

/-- Optional-chaining index access `a?.[i]`. -/
def optIndex (v : Value) (i : Nat) : Value :=
  if v.isNullish then .vundefined else v.getIndex i

/-- JavaScript `a || b`. -/
def jsOr (a b : Value) : Value :=
  if a.truthy then a else b

/-- JavaScript `a ?? b`. -/
def jsNullishOr (a b : Value) : Value :=
  if a.isNullish then b else a

/-- The JavaScript whitespace characters (WhiteSpace and LineTerminator
productions): the set matched by `\s` and stripped by
`String.prototype.trim`. -/
def isJsWhitespace (c : Char) : Bool :=
  c == ' ' || c == '\t' || c == '\n' || c == '\r' || c == '\x0b' || c == '\x0c' ||
  c.toNat == 0xa0 || c.toNat == 0xfeff || c.toNat == 0x1680 ||
  (0x2000 ≤ c.toNat && c.toNat ≤ 0x200a) ||
  c.toNat == 0x2028 || c.toNat == 0x2029 || c.toNat == 0x202f ||
  c.toNat == 0x205f || c.toNat == 0x3000

/-- `String.prototype.trim`: strip leading and trailing whitespace. -/
def jsTrim (s : String) : String :=
  String.mk (((s.toList.dropWhile isJsWhitespace).reverse.dropWhile isJsWhitespace).reverse)

/-- The regex class `\w`: `[A-Za-z0-9_]`. -/
def isWordChar (c : Char) : Bool :=
  ('a' ≤ c && c ≤ 'z') || ('A' ≤ c && c ≤ 'Z') || ('0' ≤ c && c ≤ '9') || c == '_'

/-- The character class (word characters, whitespace, hyphen, slash) of
the path regular expression. -/
def isPathClassChar (c : Char) : Bool :=
  isWordChar c || isJsWhitespace c || c == '-' || c == '/'

/-- `isValidSitecorePath` (src/unnamed/part_001):
the test of the anchored path regex (root then one or more class
characters) — the literal ten-character root
`/sitecore/` followed by one or more characters of the class. -/
def isValidSitecorePath (path : String) : Bool :=
  decide (path.toList.take 10 = "/sitecore/".toList) &&
  !(path.toList.drop 10).isEmpty &&
  (path.toList.drop 10).all isPathClassChar

/-- `[a-z]` under the `i` flag: an ASCII letter of either case. -/
def isAsciiLetter (c : Char) : Bool :=
  ('a' ≤ c && c ≤ 'z') || ('A' ≤ c && c ≤ 'Z')

/-- `isValidLanguageCode` (src/unnamed/part_001):
`/^[a-z]{2}(-[a-z]{2,3})?$/i.test(language)` — two letters, optionally a
hyphen and two or three more letters. -/
def isValidLanguageCode (language : String) : Bool :=
  match language.toList with
  | [a, b] => isAsciiLetter a && isAsciiLetter b
  | [a, b, h, c, d] =>
      isAsciiLetter a && isAsciiLetter b && h == '-' && isAsciiLetter c && isAsciiLetter d
  | [a, b, h, c, d, e] =>
      isAsciiLetter a && isAsciiLetter b && h == '-' && isAsciiLetter c &&
        isAsciiLetter d && isAsciiLetter e
  | _ => false

/-- A record of one SDK invocation, used to state which external calls an
operation performs. -/
inductive SDKCall where
  | query (method : String)
  | mutate (method : String) (sitecoreContextId : String) (body : String)
deriving Repr, DecidableEq

/-- The `ClientSDK` capability object: `query` and `mutate` either reject
(`.error e`, with `e` the thrown value) or resolve (`.ok v`).  The
`mutate` parameters are the method name, `params.query.sitecoreContextId`
and `params.body.query`. -/
structure ClientSDK where
  query : String → Except Value Value
  mutate : String → String → String → Except Value Value

/-- A dictionary item.  The TypeScript interface declares both fields as
strings, but the values flowing out of the untyped response are
arbitrary, so they are modelled as `Value`s. -/
structure DictionaryItem where
  key : Value
  phrase : Value
deriving Repr

/-- `DICTIONARY_ENTRY_TEMPLATE_ID` (src/unnamed/part_001); literal braces
written with escapes. -/
def DICTIONARY_ENTRY_TEMPLATE_ID : String :=
  "\x7b6D1CD897-1936-4A3A-A511-289A94C2A7B1\x7d"

/-- The default `dictionaryPath` argument of `fetchDictionaryItems`. -/
def defaultDictionaryPath : String :=
  "/sitecore/content/ai/cadenceaiconversion/Dictionary/Demo"

/-- The GraphQL query template literal of `fetchDictionaryItems`, with
the path, language and template id interpolated; braces escaped. -/
def buildQuery (dictionaryPath language : String) : String :=
  "\x7b\n              item(path:\"" ++ dictionaryPath ++ "\", language:\"" ++ language ++
  "\") \x7b\n                children(includeTemplateIDs:\"" ++ DICTIONARY_ENTRY_TEMPLATE_ID ++
  "\") \x7b\n                  results \x7b\n                    keyField: field(name: \"Key\") \x7b\n                      value\n                    \x7d,\n                    phraseField: field(name: \"Phrase\") \x7b\n                      value\n                    \x7d\n                  \x7d\n                \x7d\n              \x7d\n            \x7d"

/-- `getApplicationContext` (src/unnamed/part_001): `null` for an absent
client; otherwise `application?.data ?? null` on resolution and `null`
on rejection (caught).  Returns the result together with the SDK calls
issued. -/
def getApplicationContext (client : Option ClientSDK) : Value × List SDKCall :=
  match client with
  | none => (.vnull, [])
  | some c =>
    match c.query "application.context" with
    | .error _ => (.vnull, [.query "application.context"])
    | .ok application =>
        (jsNullishOr (optGet application "data") .vnull, [.query "application.context"])

/-- The nested optional chain
`appContext?.resources?.[0]?.context?.preview`. -/
def previewChain (appContext : Value) : Value :=
  optGet (optGet (optIndex (optGet appContext "resources") 0) "context") "preview"

/-- `getPreviewContextId` (src/unnamed/part_001): resolves the context,
then reads `appContext?.resources?.[0]?.context?.preview` and returns it
only when it is a string. -/
def getPreviewContextId (client : Option ClientSDK) : Option String × List SDKCall :=
  match client with
  | none => (none, [])
  | some c =>
    match getApplicationContext (some c) with
    | (appContext, calls) =>
      if !appContext.truthy then (none, calls)
      else
        match previewChain appContext with
        | .vstr s => (some s, calls)
        | _ => (none, calls)

/-- One step of the result mapping: `item.keyField?.value || ""` and
`item.phraseField?.value || ""`.  The plain accesses `item.keyField` /
`item.phraseField` throw (`.error`) when `item` is nullish. -/
def mapResultItem (item : Value) : Except Unit DictionaryItem :=
  if item.isNullish then .error ()
  else
    .ok ⟨jsOr (optGet (item.getField "keyField") "value") (.vstr ""),
         jsOr (optGet (item.getField "phraseField") "value") (.vstr "")⟩

/-- `results.map(...)` with exception propagation. -/
def mapResults : List Value → Except Unit (List DictionaryItem)
  | [] => .ok []
  | item :: rest =>
    match mapResultItem item with
    | .error e => .error e
    | .ok it =>
      match mapResults rest with
      | .error e => .error e
      | .ok tail => .ok (it :: tail)

/-- The filter callback `item.phrase.trim().length > 0`; calling `.trim()`
on a non-string throws. -/
def keepItem (it : DictionaryItem) : Except Unit Bool :=
  match it.phrase with
  | .vstr s => .ok (decide ((jsTrim s).length > 0))
  | _ => .error ()

/-- `.filter(...)` over the mapped items with exception propagation. -/
def filterItems : List DictionaryItem → Except Unit (List DictionaryItem)
  | [] => .ok []
  | it :: rest =>
    match keepItem it with
    | .error e => .error e
    | .ok keep =>
      match filterItems rest with
      | .error e => .error e
      | .ok tail => .ok (if keep then it :: tail else tail)

/-- The `.map(...).filter(...)` pipeline applied to the unpacked results. -/
def processResults (results : List Value) : Except Unit (List DictionaryItem) :=
  match mapResults results with
  | .error e => .error e
  | .ok mapped => filterItems mapped

/-- The unpacking `response?.data?.data?.item?.children?.results`. -/
def responseResults (response : Value) : Value :=
  optGet (optGet (optGet (optGet (optGet response "data") "data") "item") "children") "results"

/-- Whether a value is an array (`Array.isArray`). -/
def Value.isArray : Value → Bool
  | .varr _ => true
  | _ => false

/-- `fetchDictionaryItems` (src/unnamed/part_001).  Every throwing path
inside the `try` block collapses to `[]` through the `catch`; the
source's falsy guard on the resolved preview context id also rejects the
empty string (a string for which the JavaScript negation is true), so
both the absent and the empty id return `[]` before the mutation; the
second component lists the SDK calls issued. -/
def fetchDictionaryItems (client : Option ClientSDK)
    (dictionaryPath : String := defaultDictionaryPath) (language : String := "en") :
    List DictionaryItem × List SDKCall :=
  match client with
  | none => ([], [])
  | some c =>
    if !isValidSitecorePath dictionaryPath then ([], [])
    else if !isValidLanguageCode language then ([], [])
    else
      match getPreviewContextId (some c) with
      | (none, calls) => ([], calls)
      | (some previewContextId, calls) =>
        if previewContextId.isEmpty then ([], calls)
        else
          let body := buildQuery dictionaryPath language
          let calls2 := calls ++ [.mutate "xmc.preview.graphql" previewContextId body]
          match c.mutate "xmc.preview.graphql" previewContextId body with
          | .error _ => ([], calls2)
          | .ok response =>
            match responseResults response with
            | .varr results =>
              if results.length = 0 then ([], calls2)
              else
                match processResults results with
                | .ok items => (items, calls2)
                | .error _ => ([], calls2)
            | _ => ([], calls2)

/-- The state exposed by `useUser` (src/unnamed/part_000): `user` starts
as `undefined` and `isLoading` as `true`. -/
structure UseUserState where
  user : Value
  isLoading : Bool
deriving Repr

/-- The initial `useUser` state. -/
def initialUserState : UseUserState := ⟨.vundefined, true⟩

/-- One run of the `fetchUserData` effect of `useUser`
(src/unnamed/part_000): skip when the client is absent or uninitialized;
otherwise set loading, query `host.user`, destructure `{ data }` (which
throws when the resolved value is nullish), store the user on success,
and clear loading in the `finally` block. -/
def runUserEffect (client : Option ClientSDK) (isInitialized : Bool) (s : UseUserState) :
    UseUserState × List SDKCall :=
  match client, isInitialized with
  | some c, true =>
    let s1 : UseUserState := { s with isLoading := true }
    (match c.query "host.user" with
     | .error _ => ({ s1 with isLoading := false }, [.query "host.user"])
     | .ok r =>
       if r.isNullish then ({ s1 with isLoading := false }, [.query "host.user"])
       else ({ user := r.getField "data", isLoading := false }, [.query "host.user"]))
  | _, _ => (s, [])

/-! Concrete clients and response builders used to instantiate the
theorems below. -/

/-- A context-query response whose payload carries
`resources[0].context.preview = pid`. -/
def goodCtxResponse (pid : String) : Value :=
  .vobj [("data", .vobj [("resources",
    .varr [.vobj [("context", .vobj [("preview", .vstr pid)])]])])]

/-- Wrap a list of raw result entries in the nested GraphQL response
shape `data.data.item.children.results`. -/
def wrapResults (items : List Value) : Value :=
  .vobj [("data", .vobj [("data", .vobj [("item", .vobj [("children",
    .vobj [("results", .varr items)])])])])]

/-- A client whose queries resolve to `ctxResp` and whose mutations
resolve to `mutResp`. -/
def mkFetchClient (ctxResp mutResp : Except Value Value) : ClientSDK :=
  ⟨fun _ => ctxResp, fun _ _ _ => mutResp⟩

/-- A client all of whose calls reject. -/
def rejectingClient : ClientSDK :=
  ⟨fun _ => .error (.vstr "network failure"), fun _ _ _ => .error (.vstr "network failure")⟩

/-- Encode a well-formed result entry from an optional `keyField.value`
string and an optional `phraseField.value` string. -/
def encodeResult : Option String × Option String → Value
  | (k, p) =>
    .vobj ((match k with
            | some s => [("keyField", Value.vobj [("value", Value.vstr s)])]
            | none => []) ++
           (match p with
            | some s => [("phraseField", Value.vobj [("value", Value.vstr s)])]
            | none => []))

/-- The mapping the specification describes for a well-formed entry:
`key` is the key value or `""`, `phrase` the phrase value or `""`. -/
def specItem : Option String × Option String → DictionaryItem
  | (k, p) => ⟨.vstr (k.getD ""), .vstr (p.getD "")⟩

/-- The specification's filter: keep exactly the items whose trimmed
phrase is non-empty. -/
def specKeepItem (it : DictionaryItem) : Bool :=
  match it.phrase with
  | .vstr s => decide (jsTrim s ≠ "")
  | _ => false

/-! Helper lemmas, shared by the claim theorems below. -/

lemma string_length_pos_iff (t : String) : 0 < t.length ↔ t ≠ "" := by
  rcases t with ⟨data⟩
  rw [String.length_mk]
  constructor
  · intro h he
    have hd : data = [] := congrArg String.data he
    simp [hd] at h
  · intro h
    cases data with
    | nil => exact absurd rfl h
    | cons c cs => simp

lemma jsOr_vstr_empty (s : String) : jsOr (.vstr s) (.vstr "") = .vstr s := by
  by_cases h : s.isEmpty
  · rw [(String.isEmpty_iff s).mp h]
    rfl
  · simp [jsOr, Value.truthy, h]

lemma mapResultItem_encode (kp : Option String × Option String) :
    mapResultItem (encodeResult kp) = .ok (specItem kp) := by
  rcases kp with ⟨k, p⟩
  rcases k with _ | ks <;> rcases p with _ | ps
  · rfl
  · show Except.ok (⟨jsOr .vundefined (.vstr ""), jsOr (.vstr ps) (.vstr "")⟩ : DictionaryItem) = _
    rw [jsOr_vstr_empty]
    rfl
  · show Except.ok (⟨jsOr (.vstr ks) (.vstr ""), jsOr .vundefined (.vstr "")⟩ : DictionaryItem) = _
    rw [jsOr_vstr_empty]
    rfl
  · show Except.ok (⟨jsOr (.vstr ks) (.vstr ""), jsOr (.vstr ps) (.vstr "")⟩ : DictionaryItem) = _
    rw [jsOr_vstr_empty, jsOr_vstr_empty]
    rfl

lemma mapResults_encode (rs : List (Option String × Option String)) :
    mapResults (rs.map encodeResult) = .ok (rs.map specItem) := by
  induction rs with
  | nil => rfl
  | cons hd tl ih =>
    simp only [List.map_cons, mapResults, mapResultItem_encode, ih]

lemma keepItem_specItem (kp : Option String × Option String) :
    keepItem (specItem kp) = .ok (specKeepItem (specItem kp)) := by
  rcases kp with ⟨k, p⟩
  show Except.ok (decide ((jsTrim (p.getD "")).length > 0))
      = Except.ok (decide (jsTrim (p.getD "") ≠ ""))
  congr 1
  rw [decide_eq_decide]
  exact string_length_pos_iff _

lemma filterItems_specItems (rs : List (Option String × Option String)) :
    filterItems (rs.map specItem) = .ok ((rs.map specItem).filter specKeepItem) := by
  induction rs with
  | nil => rfl
  | cons hd tl ih =>
    simp only [List.map_cons, filterItems, keepItem_specItem, ih, List.filter_cons]

lemma processResults_encode (rs : List (Option String × Option String)) :
    processResults (rs.map encodeResult) = .ok ((rs.map specItem).filter specKeepItem) := by
  simp only [processResults, mapResults_encode, filterItems_specItems]

lemma getPreviewContextId_mkFetchClient (pid : String) (m : Except Value Value) :
    getPreviewContextId (some (mkFetchClient (.ok (goodCtxResponse pid)) m)) =
      (some pid, [.query "application.context"]) := rfl

lemma responseResults_wrapResults (items : List Value) :
    responseResults (wrapResults items) = .varr items := rfl

lemma fetch_valid_unfold (c : ClientSDK) (path lang : String)
    (hp : isValidSitecorePath path = true) (hl : isValidLanguageCode lang = true) :
    fetchDictionaryItems (some c) path lang
      = (match getPreviewContextId (some c) with
         | (none, calls) => ([], calls)
         | (some previewContextId, calls) =>
           if previewContextId.isEmpty then ([], calls)
           else
             let body := buildQuery path lang
             let calls2 := calls ++ [.mutate "xmc.preview.graphql" previewContextId body]
             match c.mutate "xmc.preview.graphql" previewContextId body with
             | .error _ => ([], calls2)
             | .ok response =>
               match responseResults response with
               | .varr results =>
                 if results.length = 0 then ([], calls2)
                 else
                   match processResults results with
                   | .ok items => (items, calls2)
                   | .error _ => ([], calls2)
               | _ => ([], calls2)) := by
  unfold fetchDictionaryItems
  rw [hp, hl]
  rfl

lemma fetch_encoded (rs : List (Option String × Option String)) (path lang pid : String)
    (hp : isValidSitecorePath path = true) (hl : isValidLanguageCode lang = true)
    (hq : pid.isEmpty = false) (hne : rs ≠ []) :
    fetchDictionaryItems
        (some (mkFetchClient (.ok (goodCtxResponse pid))
          (.ok (wrapResults (rs.map encodeResult))))) path lang
      = ((rs.map specItem).filter specKeepItem,
         [.query "application.context",
          .mutate "xmc.preview.graphql" pid (buildQuery path lang)]) := by
  have hlen : (rs.map encodeResult).length = 0 ↔ False := by
    simp [List.length_eq_zero, hne]
  rw [fetch_valid_unfold _ _ _ hp hl, getPreviewContextId_mkFetchClient]
  simp only [mkFetchClient, hq, responseResults_wrapResults, processResults_encode, hlen,
    if_false, eq_self_iff_true, Bool.false_eq_true]
  rfl

lemma previewChain_of_falsy (app : Value) (h : app.truthy = false) :
    previewChain app = .vundefined := by
  cases app with
  | vundefined => rfl
  | vnull => rfl
  | vbool b => rfl
  | vnum n => rfl
  | vstr s => rfl
  | varr xs => rfl
  | vobj fs => exact absurd h (by simp [Value.truthy])

lemma getPreviewContextId_ok (c : ClientSDK) (r : Value)
    (hr : c.query "application.context" = .ok r) :
    getPreviewContextId (some c)
      = (if (jsNullishOr (optGet r "data") .vnull).truthy then
           match previewChain (jsNullishOr (optGet r "data") .vnull) with
           | .vstr s => some s
           | _ => none
         else none,
         [.query "application.context"]) := by
  simp only [getPreviewContextId, getApplicationContext, hr]
  by_cases htr : (jsNullishOr (optGet r "data") .vnull).truthy
  · rcases hch : previewChain (jsNullishOr (optGet r "data") .vnull) <;> simp [htr, hch]
  · simp [htr]

/-- A client whose context query resolves to an object whose payload
lacks a `resources` field. -/
def lacksResourcesClient : ClientSDK :=
  mkFetchClient (.ok (.vobj [("data", .vobj [("site", .vstr "demo")])])) (.error .vnull)

/-- C3: `getPreviewContextId` returns null when the application context
is absent (client missing, query rejected, or falsy context payload), or
when the nested field `resources[0].context.preview` is missing or not a
string — tolerating any absent intermediate key, since the optional
chain is total — and otherwise returns exactly that string. -/
theorem getPreviewContextId_cases (c : ClientSDK) :
    (getPreviewContextId none).1 = none ∧
    (∀ e, c.query "application.context" = .error e →
        (getPreviewContextId (some c)).1 = none) ∧
    (∀ r, c.query "application.context" = .ok r →
      ((jsNullishOr (optGet r "data") .vnull).truthy = false →
          (getPreviewContextId (some c)).1 = none) ∧
      ((∀ s, previewChain (jsNullishOr (optGet r "data") .vnull) ≠ .vstr s) →
          (getPreviewContextId (some c)).1 = none) ∧
      (∀ s, previewChain (jsNullishOr (optGet r "data") .vnull) = .vstr s →
          (getPreviewContextId (some c)).1 = some s)) := by
  refine ⟨rfl, ?_, ?_⟩
  · intro e he
    simp [getPreviewContextId, getApplicationContext, he, Value.truthy]
  · intro r hr
    refine ⟨?_, ?_, ?_⟩
    · intro hfalsy
      rw [getPreviewContextId_ok c r hr]
      simp [hfalsy]
    · intro hnostr
      rw [getPreviewContextId_ok c r hr]
      by_cases htr : (jsNullishOr (optGet r "data") .vnull).truthy
      · rcases hch : previewChain (jsNullishOr (optGet r "data") .vnull) <;> simp [htr, hch]
        exact absurd hch (hnostr _)
      · simp [htr]
    · intro s hchain
      have htr : (jsNullishOr (optGet r "data") .vnull).truthy = true := by
        by_contra hf
        rw [Bool.not_eq_true] at hf
        rw [previewChain_of_falsy _ hf] at hchain
        exact Value.noConfusion hchain
      rw [getPreviewContextId_ok c r hr]
      simp [htr, hchain]

/-- Witness for C3 at a context object lacking `resources`. -/
theorem getPreviewContextId_cases_witness :
    (getPreviewContextId (some lacksResourcesClient)).1 = none :=
  ((getPreviewContextId_cases lacksResourcesClient).2.2 _ rfl).2.1
    (fun _ h => Value.noConfusion h)

/-- C7: `getApplicationContext` never throws — it is a total function of
the embedding — and returns null when the client handle is absent or the
query rejects, and otherwise the response's payload
(`application?.data ?? null`). -/
theorem getApplicationContext_fails_soft (c : ClientSDK) :
    (getApplicationContext none).1 = .vnull ∧
    (∀ e, c.query "application.context" = .error e →
        (getApplicationContext (some c)).1 = .vnull) ∧
    (∀ r, c.query "application.context" = .ok r →
        (getApplicationContext (some c)).1 = jsNullishOr (optGet r "data") .vnull) := by
  refine ⟨rfl, ?_, ?_⟩ <;> intro x hx <;> simp [getApplicationContext, hx]

/-- Witness for C7: a rejected query gives null; a resolved query gives
the payload. -/
theorem getApplicationContext_fails_soft_witness :
    (getApplicationContext (some rejectingClient)).1 = .vnull ∧
    (getApplicationContext (some (mkFetchClient (.ok (goodCtxResponse "pid"))
        (.error .vnull)))).1 = optGet (goodCtxResponse "pid") "data" :=
  ⟨(getApplicationContext_fails_soft rejectingClient).2.1 _ rfl,
   by
    rw [(getApplicationContext_fails_soft (mkFetchClient (.ok (goodCtxResponse "pid"))
      (.error .vnull))).2.2 (goodCtxResponse "pid") rfl]
    rfl⟩

/-- C10: on a successful query whose `data` field is nullish,
`getApplicationContext` returns null (indistinguishable from failure);
otherwise it returns exactly the `data` field, not the whole response. -/
theorem getApplicationContext_nullish_payload (c : ClientSDK) :
    (∀ r, c.query "application.context" = .ok r → (optGet r "data").isNullish = true →
        (getApplicationContext (some c)).1 = .vnull) ∧
    (∀ r, c.query "application.context" = .ok r → (optGet r "data").isNullish = false →
        (getApplicationContext (some c)).1 = optGet r "data") := by
  constructor <;> intro r hr hd <;> simp [getApplicationContext, hr, jsNullishOr, hd]

/-- Witness for C10: a null payload collapses to null; a non-null
payload is returned as the data field itself. -/
theorem getApplicationContext_nullish_payload_witness :
    (getApplicationContext (some (mkFetchClient (.ok (.vobj [("data", .vnull)]))
        (.error .vnull)))).1 = .vnull ∧
    (getApplicationContext (some (mkFetchClient (.ok (.vobj [("data", .vstr "ctx")]))
        (.error .vnull)))).1 = .vstr "ctx" :=
  ⟨(getApplicationContext_nullish_payload
      (mkFetchClient (.ok (.vobj [("data", .vnull)])) (.error .vnull))).1
      (.vobj [("data", .vnull)]) rfl rfl,
   by
    rw [(getApplicationContext_nullish_payload
      (mkFetchClient (.ok (.vobj [("data", .vstr "ctx")])) (.error .vnull))).2
      (.vobj [("data", .vstr "ctx")]) rfl rfl]
    rfl⟩

/-- C1: `fetchDictionaryItems` always resolves to a list (it is a total
function of the embedding: every internal throw lives in `Except` and is
caught), and on every failure path — absent client, invalid path or
language, missing preview context id (either absent or the falsy empty
string, both rejected by the source's negation guard), rejected GraphQL
mutation, malformed response, or a response whose entries make the
map/filter pipeline throw — it resolves to the empty list. -/
theorem fetch_resolves_empty_on_failure (c : ClientSDK) (path lang : String) :
    (fetchDictionaryItems none path lang).1 = [] ∧
    (isValidSitecorePath path = false → (fetchDictionaryItems (some c) path lang).1 = []) ∧
    (isValidLanguageCode lang = false → (fetchDictionaryItems (some c) path lang).1 = []) ∧
    (isValidSitecorePath path = true → isValidLanguageCode lang = true →
      (((getPreviewContextId (some c)).1 = none ∨ (getPreviewContextId (some c)).1 = some "") →
          (fetchDictionaryItems (some c) path lang).1 = []) ∧
      (∀ pid, (getPreviewContextId (some c)).1 = some pid → pid ≠ "" →
        (∀ e, c.mutate "xmc.preview.graphql" pid (buildQuery path lang) = .error e →
            (fetchDictionaryItems (some c) path lang).1 = []) ∧
        (∀ resp, c.mutate "xmc.preview.graphql" pid (buildQuery path lang) = .ok resp →
          ((responseResults resp).isArray = false →
              (fetchDictionaryItems (some c) path lang).1 = []) ∧
          (∀ rs, responseResults resp = .varr rs → processResults rs = .error () →
              (fetchDictionaryItems (some c) path lang).1 = [])))) := by
  refine ⟨rfl, ?_, ?_, ?_⟩
  · intro h
    unfold fetchDictionaryItems
    rw [h]
    rfl
  · intro h
    by_cases hp : isValidSitecorePath path
    · unfold fetchDictionaryItems
      rw [hp, h]
      rfl
    · rw [Bool.not_eq_true] at hp
      unfold fetchDictionaryItems
      rw [hp]
      rfl
  · intro hp hl
    refine ⟨?_, ?_⟩
    · intro hfalsy
      rcases hgp : getPreviewContextId (some c) with ⟨po, tr⟩
      rw [hgp] at hfalsy
      rcases hfalsy with hpo | hpo
      · have hpo2 : po = none := hpo
        subst hpo2
        rw [fetch_valid_unfold c path lang hp hl, hgp]
      · have hpo2 : po = some "" := hpo
        subst hpo2
        rw [fetch_valid_unfold c path lang hp hl, hgp]
        rfl
    · intro pid hpid hpidne
      have hq : pid.isEmpty = false := by
        cases hq0 : pid.isEmpty
        · rfl
        · exact absurd ((String.isEmpty_iff pid).mp hq0) hpidne
      rcases hgp : getPreviewContextId (some c) with ⟨po, tr⟩
      rw [hgp] at hpid
      have hpo : po = some pid := hpid
      subst hpo
      refine ⟨?_, ?_⟩
      · intro e he
        rw [fetch_valid_unfold c path lang hp hl, hgp]
        simp only [hq, Bool.false_eq_true, if_false, he]
      · intro resp hresp
        refine ⟨?_, ?_⟩
        · intro hnotarr
          rw [fetch_valid_unfold c path lang hp hl, hgp]
          simp only [hq, Bool.false_eq_true, if_false, hresp]
          rcases hrr : responseResults resp <;> simp_all [Value.isArray]
        · intro rs hrs herr
          rw [fetch_valid_unfold c path lang hp hl, hgp]
          simp only [hq, Bool.false_eq_true, if_false, hresp, hrs, herr]
          by_cases hlen : rs.length = 0 <;> simp [hlen]

/-- Witness for C1, exercising each failure path at concrete inputs:
no client; invalid path; invalid language; rejected context query; an
empty (falsy) preview context id with an otherwise well-formed response;
rejected mutation; non-array results; an entry that makes the pipeline
throw. -/
theorem fetch_resolves_empty_on_failure_witness :
    (fetchDictionaryItems none defaultDictionaryPath "en").1 = [] ∧
    (fetchDictionaryItems (some rejectingClient) "/content/home" "en").1 = [] ∧
    (fetchDictionaryItems (some rejectingClient) defaultDictionaryPath "EN_US").1 = [] ∧
    (fetchDictionaryItems (some rejectingClient) defaultDictionaryPath "en").1 = [] ∧
    (fetchDictionaryItems (some (mkFetchClient (.ok (goodCtxResponse ""))
        (.ok (wrapResults ([(some "a", some "Hello")].map encodeResult)))))
        defaultDictionaryPath "en").1 = [] ∧
    (fetchDictionaryItems (some (mkFetchClient (.ok (goodCtxResponse "pid"))
        (.error (.vstr "boom")))) defaultDictionaryPath "en").1 = [] ∧
    (fetchDictionaryItems (some (mkFetchClient (.ok (goodCtxResponse "pid"))
        (.ok .vnull))) defaultDictionaryPath "en").1 = [] ∧
    (fetchDictionaryItems (some (mkFetchClient (.ok (goodCtxResponse "pid"))
        (.ok (wrapResults [.vnull])))) defaultDictionaryPath "en").1 = [] :=
  ⟨(fetch_resolves_empty_on_failure rejectingClient defaultDictionaryPath "en").1,
   (fetch_resolves_empty_on_failure rejectingClient "/content/home" "en").2.1 (by decide),
   (fetch_resolves_empty_on_failure rejectingClient defaultDictionaryPath "EN_US").2.2.1
     (by decide),
   ((fetch_resolves_empty_on_failure rejectingClient defaultDictionaryPath "en").2.2.2
     (by decide) (by decide)).1 (Or.inl rfl),
   ((fetch_resolves_empty_on_failure (mkFetchClient (.ok (goodCtxResponse ""))
       (.ok (wrapResults ([(some "a", some "Hello")].map encodeResult))))
       defaultDictionaryPath "en").2.2.2
     (by decide) (by decide)).1 (Or.inr rfl),
   (((fetch_resolves_empty_on_failure (mkFetchClient (.ok (goodCtxResponse "pid"))
       (.error (.vstr "boom"))) defaultDictionaryPath "en").2.2.2
     (by decide) (by decide)).2 "pid" rfl (by decide)).1 _ rfl,
   ((((fetch_resolves_empty_on_failure (mkFetchClient (.ok (goodCtxResponse "pid"))
       (.ok .vnull)) defaultDictionaryPath "en").2.2.2
     (by decide) (by decide)).2 "pid" rfl (by decide)).2 .vnull rfl).1 rfl,
   ((((fetch_resolves_empty_on_failure (mkFetchClient (.ok (goodCtxResponse "pid"))
       (.ok (wrapResults [.vnull]))) defaultDictionaryPath "en").2.2.2
     (by decide) (by decide)).2 "pid" rfl (by decide)).2 _ rfl).2 [.vnull] rfl rfl⟩

/-- C2: on a well-formed GraphQL response with a non-empty results
array, `fetchDictionaryItems` returns exactly the in-order mapping of
each entry to key/phrase (with `""` defaults) filtered to the entries
whose trimmed phrase is non-empty. -/
theorem fetch_wellFormed_results (rs : List (Option String × Option String))
    (path lang pid : String)
    (hp : isValidSitecorePath path = true) (hl : isValidLanguageCode lang = true)
    (hpid : pid ≠ "") (hne : rs ≠ []) :
    (fetchDictionaryItems (some (mkFetchClient (.ok (goodCtxResponse pid))
        (.ok (wrapResults (rs.map encodeResult))))) path lang).1
      = (rs.map specItem).filter specKeepItem := by
  have hq : pid.isEmpty = false := by
    cases hq0 : pid.isEmpty
    · rfl
    · exact absurd ((String.isEmpty_iff pid).mp hq0) hpid
  rw [fetch_encoded rs path lang pid hp hl hq hne]

/-- Witness for C2 at the response of the specification's example:
`[(key a, phrase Hello), (key b, empty phrase)]` yields exactly
`[(a, Hello)]`. -/
theorem fetch_wellFormed_results_witness :
    (fetchDictionaryItems (some (mkFetchClient (.ok (goodCtxResponse "pid"))
        (.ok (wrapResults ([(some "a", some "Hello"), (some "b", some "")].map
          encodeResult))))) defaultDictionaryPath "en").1
      = [⟨.vstr "a", .vstr "Hello"⟩] := by
  rw [fetch_wellFormed_results [(some "a", some "Hello"), (some "b", some "")]
    defaultDictionaryPath "en" "pid" (by decide) (by decide) (by decide) (by decide)]
  rfl

/-- C6: after the GraphQL call, a response whose unpacked
`data.data.item.children.results` is absent or not a sequence yields the
empty list, and so does a present but empty sequence — the same return
value in both cases. -/
theorem malformed_or_empty_results (c : ClientSDK) (path lang pid : String)
    (hp : isValidSitecorePath path = true) (hl : isValidLanguageCode lang = true)
    (hpid : (getPreviewContextId (some c)).1 = some pid) :
    ∀ resp, c.mutate "xmc.preview.graphql" pid (buildQuery path lang) = .ok resp →
      ((responseResults resp).isArray = false →
          (fetchDictionaryItems (some c) path lang).1 = []) ∧
      (responseResults resp = .varr [] →
          (fetchDictionaryItems (some c) path lang).1 = []) := by
  intro resp hresp
  rcases hgp : getPreviewContextId (some c) with ⟨po, tr⟩
  rw [hgp] at hpid
  have hpo : po = some pid := hpid
  subst hpo
  constructor
  · intro hnotarr
    rw [fetch_valid_unfold c path lang hp hl, hgp]
    by_cases hq : pid.isEmpty
    · simp [hq]
    · rw [Bool.not_eq_true] at hq
      simp only [hq, Bool.false_eq_true, if_false, hresp]
      rcases hrr : responseResults resp <;> simp_all [Value.isArray]
  · intro hempty
    rw [fetch_valid_unfold c path lang hp hl, hgp]
    by_cases hq : pid.isEmpty
    · simp [hq]
    · rw [Bool.not_eq_true] at hq
      simp only [hq, Bool.false_eq_true, if_false, hresp, hempty]
      simp

/-- Witness for C6: a string response (not a sequence) and an empty
results array both give the empty list. -/
theorem malformed_or_empty_results_witness :
    (fetchDictionaryItems (some (mkFetchClient (.ok (goodCtxResponse "pid"))
        (.ok (.vstr "oops")))) defaultDictionaryPath "en").1 = [] ∧
    (fetchDictionaryItems (some (mkFetchClient (.ok (goodCtxResponse "pid"))
        (.ok (wrapResults [])))) defaultDictionaryPath "en").1 = [] :=
  ⟨(malformed_or_empty_results (mkFetchClient (.ok (goodCtxResponse "pid"))
      (.ok (.vstr "oops"))) defaultDictionaryPath "en" "pid"
      (by decide) (by decide) rfl _ rfl).1 rfl,
   (malformed_or_empty_results (mkFetchClient (.ok (goodCtxResponse "pid"))
      (.ok (wrapResults []))) defaultDictionaryPath "en" "pid"
      (by decide) (by decide) rfl _ rfl).2 rfl⟩

/-- C9: the returned phrase is kept exactly as received (not trimmed),
the key is never validated — a missing `keyField` becomes `""` — and
duplicate keys are not deduplicated: two identical entries are both
returned. -/
theorem fetch_keeps_raw_phrase_and_key (k : Option String) (p : String)
    (hkeep : jsTrim p ≠ "") :
    (fetchDictionaryItems (some (mkFetchClient (.ok (goodCtxResponse "pid"))
        (.ok (wrapResults ([(k, some p), (k, some p)].map encodeResult)))))
        defaultDictionaryPath "en").1
      = [⟨.vstr (k.getD ""), .vstr p⟩, ⟨.vstr (k.getD ""), .vstr p⟩] := by
  rw [fetch_encoded [(k, some p), (k, some p)] defaultDictionaryPath "en" "pid"
    (by decide) (by decide) (by decide) (by simp)]
  simp [specItem, specKeepItem, List.filter_cons, hkeep]

/-- Witness for C9: an untrimmed phrase with surrounding whitespace and
an absent key survive unchanged, twice. -/
theorem fetch_keeps_raw_phrase_and_key_witness :
    (fetchDictionaryItems (some (mkFetchClient (.ok (goodCtxResponse "pid"))
        (.ok (wrapResults ([(none, some "  Hello  "), (none, some "  Hello  ")].map
          encodeResult))))) defaultDictionaryPath "en").1
      = [⟨.vstr "", .vstr "  Hello  "⟩, ⟨.vstr "", .vstr "  Hello  "⟩] := by
  have h := fetch_keeps_raw_phrase_and_key none "  Hello  " (by decide)
  simpa using h

lemma all_mem_two {x y : Char} (hx : isAsciiLetter x = true) (hy : isAsciiLetter y = true) :
    ∀ ch ∈ [x, y], isAsciiLetter ch = true := by
  intro ch hch
  rcases List.mem_cons.mp hch with rfl | hch2
  · exact hx
  · rcases List.mem_cons.mp hch2 with rfl | hch3
    · exact hy
    · simp at hch3

lemma all_mem_three {x y z : Char} (hx : isAsciiLetter x = true)
    (hy : isAsciiLetter y = true) (hz : isAsciiLetter z = true) :
    ∀ ch ∈ [x, y, z], isAsciiLetter ch = true := by
  intro ch hch
  rcases List.mem_cons.mp hch with rfl | hch2
  · exact hx
  · exact all_mem_two hy hz ch hch2

/-- C4: for every non-null client and any path failing the validator,
`fetchDictionaryItems` returns the empty list with an empty call trace —
neither the context query nor the GraphQL mutation is attempted — and
the path validator accepts exactly the strings matching the anchored
path regex: the literal root `/sitecore/` followed by one or more
characters of the class (word characters, whitespace, hyphen, slash). -/
theorem invalid_path_no_sdk_calls (c : ClientSDK) (path lang : String) :
    (isValidSitecorePath path = false →
        fetchDictionaryItems (some c) path lang = ([], [])) ∧
    (isValidSitecorePath path = true ↔
      ∃ rest : List Char, path.toList = "/sitecore/".toList ++ rest ∧ rest ≠ [] ∧
        ∀ ch ∈ rest, isPathClassChar ch = true) := by
  constructor
  · intro h
    unfold fetchDictionaryItems
    rw [h]
    rfl
  · constructor
    · intro h
      unfold isValidSitecorePath at h
      simp only [Bool.and_eq_true, decide_eq_true_eq, Bool.not_eq_true',
        List.all_eq_true] at h
      obtain ⟨⟨h1, h2⟩, h3⟩ := h
      refine ⟨path.toList.drop 10, ?_, ?_, h3⟩
      · conv_lhs => rw [← List.take_append_drop 10 path.toList]
        rw [h1]
      · intro hnil
        rw [hnil] at h2
        simp at h2
    · rintro ⟨rest, hdecomp, hne, hall⟩
      unfold isValidSitecorePath
      rw [hdecomp, @List.take_left' Char ("/sitecore/".toList) rest 10 (by decide),
        @List.drop_left' Char ("/sitecore/".toList) rest 10 (by decide)]
      simp only [Bool.and_eq_true, decide_eq_true_eq, Bool.not_eq_true',
        List.all_eq_true]
      refine ⟨⟨trivial, ?_⟩, hall⟩
      cases rest with
      | nil => exact absurd rfl hne
      | cons c2 cs => rfl

/-- Witness for C4: a path outside the root produces no SDK calls at
all, and a well-formed path satisfies the characterization. -/
theorem invalid_path_no_sdk_calls_witness :
    fetchDictionaryItems (some rejectingClient) "/content/home" "en" = ([], []) ∧
    isValidSitecorePath "/sitecore/content/Home" = true :=
  ⟨(invalid_path_no_sdk_calls rejectingClient "/content/home" "en").1 (by decide),
   (invalid_path_no_sdk_calls rejectingClient "/sitecore/content/Home" "en").2.mpr
     ⟨"content/Home".toList, by decide, by decide, by decide⟩⟩

/-- C5: with a valid path, any language failing the validator yields the
empty list; and the language validator accepts exactly a two-letter
primary code optionally followed by a hyphen and a two- or three-letter
region code, case-insensitively (ASCII letters of either case). -/
theorem invalid_language_rejected (c : ClientSDK) (path lang : String) :
    (isValidSitecorePath path = true → isValidLanguageCode lang = false →
        (fetchDictionaryItems (some c) path lang).1 = []) ∧
    (isValidLanguageCode lang = true ↔
      ∃ p r : List Char, lang.toList = p ++ r ∧ p.length = 2 ∧
        (∀ ch ∈ p, isAsciiLetter ch = true) ∧
        (r = [] ∨ ∃ t : List Char, r = '-' :: t ∧ (t.length = 2 ∨ t.length = 3) ∧
          ∀ ch ∈ t, isAsciiLetter ch = true)) := by
  constructor
  · intro hp hl
    unfold fetchDictionaryItems
    rw [hp, hl]
    rfl
  · constructor
    · intro h
      unfold isValidLanguageCode at h
      split at h
      · next a b heq =>
        rw [Bool.and_eq_true] at h
        exact ⟨[a, b], [], by rw [heq]; rfl, rfl, all_mem_two h.1 h.2, Or.inl rfl⟩
      · next a b hy cc dd heq =>
        simp only [Bool.and_eq_true, beq_iff_eq] at h
        obtain ⟨⟨⟨⟨ha, hb⟩, hhy⟩, hc⟩, hd⟩ := h
        subst hhy
        exact ⟨[a, b], '-' :: [cc, dd], by rw [heq]; rfl, rfl, all_mem_two ha hb,
          Or.inr ⟨[cc, dd], rfl, Or.inl rfl, all_mem_two hc hd⟩⟩
      · next a b hy cc dd ee heq =>
        simp only [Bool.and_eq_true, beq_iff_eq] at h
        obtain ⟨⟨⟨⟨⟨ha, hb⟩, hhy⟩, hc⟩, hd⟩, he⟩ := h
        subst hhy
        exact ⟨[a, b], '-' :: [cc, dd, ee], by rw [heq]; rfl, rfl, all_mem_two ha hb,
          Or.inr ⟨[cc, dd, ee], rfl, Or.inr rfl, all_mem_three hc hd he⟩⟩
      · simp at h
    · rintro ⟨p, r, hdecomp, hplen, hpall, hr⟩
      obtain ⟨a, b, rfl⟩ := List.length_eq_two.mp hplen
      have ha := hpall a (by simp)
      have hb := hpall b (by simp)
      rcases hr with rfl | ⟨t, rfl, hlen, htall⟩
      · rw [List.append_nil] at hdecomp
        unfold isValidLanguageCode
        rw [hdecomp]
        simp [ha, hb]
      · rcases hlen with hl2 | hl3
        · obtain ⟨x, y, rfl⟩ := List.length_eq_two.mp hl2
          have hx := htall x (by simp)
          have hy := htall y (by simp)
          unfold isValidLanguageCode
          rw [hdecomp]
          simp [ha, hb, hx, hy]
        · obtain ⟨x, y, z, rfl⟩ := List.length_eq_three.mp hl3
          have hx := htall x (by simp)
          have hy := htall y (by simp)
          have hz := htall z (by simp)
          unfold isValidLanguageCode
          rw [hdecomp]
          simp [ha, hb, hx, hy, hz]

/-- Witness for C5: a word that is not a language code is rejected
before any call, and a hyphenated region code of mixed case satisfies
the characterization. -/
theorem invalid_language_rejected_witness :
    (fetchDictionaryItems (some rejectingClient) defaultDictionaryPath "english").1 = [] ∧
    isValidLanguageCode "pt-BR" = true :=
  ⟨(invalid_language_rejected rejectingClient defaultDictionaryPath "english").1
     (by decide) (by decide),
   (invalid_language_rejected rejectingClient defaultDictionaryPath "pt-BR").2.mpr
     ⟨['p', 't'], ['-', 'B', 'R'], by decide, by decide, by decide,
      Or.inr ⟨['B', 'R'], rfl, Or.inl rfl, by decide⟩⟩⟩

/-- C8: the user hook effect does nothing (and stays loading) when the
client is absent or uninitialized; otherwise it issues exactly one
`host.user` query and ends with `isLoading = false` in every proceeding
case — storing the user on success and leaving it unchanged when the
query rejects or resolves to a nullish value (whose destructuring
throws). -/
theorem useUser_effect_cases (c : ClientSDK) (s : UseUserState) :
    (∀ init, runUserEffect none init s = (s, [])) ∧
    (runUserEffect (some c) false s = (s, [])) ∧
    (∀ e, c.query "host.user" = .error e →
        runUserEffect (some c) true s = (⟨s.user, false⟩, [.query "host.user"])) ∧
    (∀ r, c.query "host.user" = .ok r → r.isNullish = true →
        runUserEffect (some c) true s = (⟨s.user, false⟩, [.query "host.user"])) ∧
    (∀ r, c.query "host.user" = .ok r → r.isNullish = false →
        runUserEffect (some c) true s = (⟨r.getField "data", false⟩, [.query "host.user"])) := by
  refine ⟨?_, rfl, ?_, ?_, ?_⟩
  · intro init
    cases init <;> rfl
  · intro e he
    simp [runUserEffect, he]
  · intro r hr hn
    simp [runUserEffect, hr, hn]
  · intro r hr hn
    simp [runUserEffect, hr, hn]

/-- A client resolving `host.user` to `{data: {name: "X"}}`. -/
def userOkClient : ClientSDK :=
  ⟨fun _ => .ok (.vobj [("data", .vobj [("name", .vstr "X")])]), fun _ _ _ => .error .vnull⟩

/-- Witness for C8: the resolving client ends not-loading with the
user's name stored; the rejecting client ends not-loading with the user
still undefined; an absent client leaves the initial loading state. -/
theorem useUser_effect_cases_witness :
    ((runUserEffect (some userOkClient) true initialUserState).1.isLoading = false ∧
      (runUserEffect (some userOkClient) true initialUserState).1.user.getField "name"
        = .vstr "X") ∧
    ((runUserEffect (some rejectingClient) true initialUserState).1.isLoading = false ∧
      (runUserEffect (some rejectingClient) true initialUserState).1.user = .vundefined) ∧
    (runUserEffect none true initialUserState).1.isLoading = true := by
  have hok := (useUser_effect_cases userOkClient initialUserState).2.2.2.2
    (.vobj [("data", .vobj [("name", .vstr "X")])]) rfl rfl
  have herr := (useUser_effect_cases rejectingClient initialUserState).2.2.1
    (.vstr "network failure") rfl
  have hnone := (useUser_effect_cases userOkClient initialUserState).1 true
  refine ⟨⟨?_, ?_⟩, ⟨?_, ?_⟩, ?_⟩
  · rw [hok]
  · rw [hok]
    rfl
  · rw [herr]
  · rw [herr]
    rfl
  · rw [hnone]
    rfl

end Marketplace
